import Mathlib

set_option maxRecDepth 100000

/-!
Shallow embedding of the retrieval-augmented conversation engine of
`src/index.tsx`: the `CommandView` component's `handleSend` pipeline
(relevance scan over `MOCK_MEMORY`, context assembly, streaming response,
offline fallback and fault handling), together with theorems settling the
frozen claims about it.

The React state `history` is modelled as a list of `Message`; one submitted
directive produces the ordered trace of history snapshots, one snapshot per
`setHistory` call (plus the initial one).  The generation backend is an
external collaborator and is modelled by the sequence of text increments it
yields, ending either in normal completion or in a raised fault.
-/

/-- JS `String.prototype.toLowerCase` (ASCII case folding, which covers all
data appearing in this repository). -/
def toLowerCase (s : String) : String := String.mk (s.data.map Char.toLower)

/-- JS `String.prototype.toUpperCase` (ASCII case folding). -/
def toUpperCase (s : String) : String := String.mk (s.data.map Char.toUpper)

/-- Executable substring test on lists (the needle occurs contiguously in the
haystack), used to model JS `String.prototype.includes`. -/
def isSublistOf [DecidableEq α] (needle : List α) : List α → Bool
  | [] => needle.isEmpty
  | a :: tl => needle.isPrefixOf (a :: tl) || isSublistOf needle tl

/-- JS `String.prototype.includes`: `includes s sub` is true when `sub` is a
contiguous substring of `s`. -/
def includes (s sub : String) : Bool := isSublistOf sub.data s.data

/-- JS `String.prototype.trim`: strip leading and trailing whitespace. -/
def jsTrim (s : String) : String :=
  String.mk (((s.data.dropWhile Char.isWhitespace).reverse.dropWhile Char.isWhitespace).reverse)

/-- JS `Array.prototype.join(sep)`. -/
def joinSep (sep : String) : List String → String
  | [] => ""
  | [s] => s
  | s :: ss => s ++ sep ++ joinSep sep ss

/-- `Chunk` from `src/index.tsx` (the TS string-literal union type of `source`
is kept as a plain string, as it is at runtime). -/
structure Chunk where
  id : String
  source : String
  title : String
  content : String
  timestamp : String
  semanticScore : ℚ
  lexicalScore : ℚ
  tags : List String
deriving DecidableEq

/-- The role union `'user' | 'assistant' | 'system'` of `Message`. -/
inductive Role
  | user
  | assistant
  | system
deriving DecidableEq

/-- `Message` from `src/index.tsx`.  The optional `isStreaming` field is
`false` when absent in the source, and the `Date` timestamp is modelled as a
natural-number clock reading. -/
structure Message where
  id : String
  role : Role
  content : String
  timestamp : Nat
  isStreaming : Bool
deriving DecidableEq

/-- First element of `MOCK_MEMORY` in `src/index.tsx`. -/
def chk1 : Chunk :=
  { id := "chk_1"
    source := "claude"
    title := "Project Alpha Architecture"
    content := "For the scalable backend of Project Alpha, we should stick to a microservices architecture using Go for high-throughput services and Python for the data science pipeline. The API gateway will handle authentication."
    timestamp := "2024-10-15T10:30:00Z"
    semanticScore := 0.92
    lexicalScore := 0.88
    tags := ["architecture", "backend", "go", "python"] }

/-- Second element of `MOCK_MEMORY` in `src/index.tsx`. -/
def chk3 : Chunk :=
  { id := "chk_3"
    source := "claude"
    title := "Q4 Marketing Plan"
    content := "The Q4 marketing push will focus on 'Executive Intelligence'. We need to highlight the hybrid search capabilities and the secure on-premise deployment options. Budget allocation: 40% ads, 30% content, 30% events."
    timestamp := "2024-12-01T09:00:00Z"
    semanticScore := 0.78
    lexicalScore := 0.95
    tags := ["marketing", "Q4", "budget"] }

/-- Third element of `MOCK_MEMORY` in `src/index.tsx`. -/
def chk6 : Chunk :=
  { id := "chk_6"
    source := "claude"
    title := "Team Sync Notes"
    content := "Action items: Sarah to finalize the Figma designs for the dashboard. Mike to optimize the Qdrant indexer params. Released v2.1 to staging."
    timestamp := "2025-01-12T09:30:00Z"
    semanticScore := 0.65
    lexicalScore := 0.90
    tags := ["meeting", "notes", "team"] }

/-- `MOCK_MEMORY` from `src/index.tsx`. -/
def MOCK_MEMORY : List Chunk := [chk1, chk3, chk6]

/-- The relevance-scan predicate of `handleSend`:
`c.content.toLowerCase().includes(userMsg.toLowerCase()) ||
 c.tags.some(t => userMsg.toLowerCase().includes(t))`.
Note that the tag `t` is compared as written, without case folding. -/
def matchesChunk (userMsg : String) (c : Chunk) : Bool :=
  includes (toLowerCase c.content) (toLowerCase userMsg) ||
    c.tags.any fun t => includes (toLowerCase userMsg) t

/-- The relevance filter of `handleSend`
(`MOCK_MEMORY.filter(...)`, parametrised over the store). -/
def relevantChunks (userMsg : String) (memory : List Chunk) : List Chunk :=
  memory.filter (matchesChunk userMsg)

/-- Modelled from the spec: the matching rule of section 4.1 with the tag
compared case-insensitively on both sides ("any of its tags is itself a
case-insensitive substring of the directive text").  Used only to compare the
spec's rule against the source's `matchesChunk`. -/
def specMatches (userMsg : String) (c : Chunk) : Bool :=
  includes (toLowerCase c.content) (toLowerCase userMsg) ||
    c.tags.any fun t => includes (toLowerCase userMsg) (toLowerCase t)

/-- The context assembly of `handleSend`:
`relevantChunks.map(c => `[REF: ${c.id} | ${c.source.toUpperCase()}]: ${c.content}`).join("\n\n")`. -/
def contextBlock (chunks : List Chunk) : String :=
  joinSep "\n\n"
    (chunks.map fun c =>
      "[REF: " ++ c.id ++ " | " ++ toUpperCase c.source ++ "]: " ++ c.content)

/-- The context actually interpolated into the system prompt:
`${context || "No archival data found."}` (a JS empty string is falsy). -/
def contextOrSentinel (chunks : List Chunk) : String :=
  if contextBlock chunks = "" then "No archival data found." else contextBlock chunks

/-- Outcome of consuming the Generation Client's stream: the increments it
yielded, ending either in normal completion or in a raised fault. -/
inductive GenOutcome
  | ok : List String → GenOutcome
  | fault : List String → GenOutcome
deriving DecidableEq

/-- One submission of a directive: the raw input text, whether
`process.env.API_KEY` is set, the backend outcome, and the `Date.now()`
clock base for this pipeline (successive readings are strictly increasing,
since the pipeline awaits in between). -/
structure SendInput where
  input : String
  apiKey : Bool
  gen : GenOutcome
  t : Nat
deriving DecidableEq

/-- The user message appended by `handleSend`
(`{ id: msgId, role: 'user', content: userMsg, timestamp: new Date() }`). -/
def userMsg (inp : SendInput) : Message :=
  ⟨toString inp.t, Role.user, inp.input, inp.t, false⟩

/-- The ephemeral scan notice
(`{ id: 'sys-' + msgId, role: 'system', content: "Scanning neural memory banks...", ... }`). -/
def scanMsg (inp : SendInput) : Message :=
  ⟨"sys-" ++ toString inp.t, Role.system, "Scanning neural memory banks...", inp.t + 1, false⟩

/-- The empty streaming assistant message
(`{ id: assistantMsgId, role: 'assistant', content: '', ..., isStreaming: true }`). -/
def streamMsg (inp : SendInput) : Message :=
  ⟨"ai-" ++ toString (inp.t + 2), Role.assistant, "", inp.t + 2, true⟩

/-- The error notice appended by the catch block
(`{ id: 'err', role: 'assistant', content: "CRITICAL_ERROR: Processing matrix interruption.", ... }`). -/
def faultMsg (inp : SendInput) : Message :=
  ⟨"err", Role.assistant, "CRITICAL_ERROR: Processing matrix interruption.", inp.t + 3, false⟩

/-- The offline fallback notice
(`{ id: 'err', role: 'assistant', content: "SYSTEM_ALERT: Neural Link Offline (Missing API Key).", ... }`). -/
def offlineMsg (inp : SendInput) : Message :=
  ⟨"err", Role.assistant, "SYSTEM_ALERT: Neural Link Offline (Missing API Key).", inp.t + 2, false⟩

/-- The initial history of `CommandView` (`useState<Message[]>([{ id: 'init', ... }])`). -/
def initHistory : List Message :=
  [⟨"init", Role.assistant,
    "E.A./SYSTEM v4.2 Connected.\nMemory Core: Active (21,622 records)\n\nAwaiting directive.",
    0, false⟩]

/-- `setHistory(prev => prev.map(m => m.id === assistantMsgId ? { ...m, content: fullText } : m))`. -/
def setContent (aid body : String) (h : List Message) : List Message :=
  h.map fun m => if m.id = aid then { m with content := body } else m

/-- `setHistory(prev => prev.map(m => m.id === assistantMsgId ? { ...m, isStreaming: false } : m))`. -/
def clearStreaming (aid : String) (h : List Message) : List Message :=
  h.map fun m => if m.id = aid then { m with isStreaming := false } else m

/-- `setHistory(prev => prev.filter(m => m.role !== 'system'))` (zero-fragment branch). -/
def removeSystem (h : List Message) : List Message :=
  h.filter fun m => decide (m.role ≠ Role.system)

/-- The in-place mutation of the scan notice
(`{ ...last, content: `Identified ${relevantChunks.length} relevant memory fragments.` }`). -/
def identifiedMsg (n : Nat) (last : Message) : Message :=
  { last with content := "Identified " ++ toString n ++ " relevant memory fragments." }

/-- The positive-scan branch of `handleSend`: if the last history entry is a
system notice, replace it in place with the count summary
(`[...prev.slice(0, -1), { ...last, content: ... }]`), else leave the history
unchanged. -/
def mutateLastSystem (n : Nat) (h : List Message) : List Message :=
  match h.getLast? with
  | some last =>
      if last.role = Role.system then h.dropLast ++ [identifiedMsg n last] else h
  | none => h

/-- The single history update resolving the relevance scan
(`if (relevantChunks.length > 0) { ...mutate... } else { ...filter out system... }`). -/
def scanResolved (store : List Chunk) (inp : SendInput) (h : List Message) : List Message :=
  if 0 < (relevantChunks inp.input store).length then
    mutateLastSystem (relevantChunks inp.input store).length h
  else removeSystem h

/-- The history snapshots produced by the streaming loop: after the `j`-th
increment the assistant body is the concatenation of the first `j + 1`
increments (`fullText += text; setHistory(...)`). -/
def streamingStates (aid : String) (h4 : List Message) (incs : List String) :
    List (List Message) :=
  (List.range incs.length).map fun j =>
    setContent aid (String.join (incs.take (j + 1))) h4

/-- The history as it stands when the streaming loop stops (normally or by a
fault): unchanged if no increment was yielded, else with the full accumulated
text written into the assistant message. -/
def lastStreamState (aid : String) (h4 : List Message) : List String → List Message
  | [] => h4
  | incs => setContent aid (String.join incs) h4

/-- History after `setHistory(prev => [...prev, { id: msgId, role: 'user', ... }])`. -/
def histAfterUser (hist0 : List Message) (inp : SendInput) : List Message :=
  hist0 ++ [userMsg inp]

/-- History after `setHistory(prev => [...prev, { id: 'sys-' + msgId, role: 'system', ... }])`. -/
def histAfterNotice (hist0 : List Message) (inp : SendInput) : List Message :=
  histAfterUser hist0 inp ++ [scanMsg inp]

/-- History after the scan-resolution update (mutate in place or filter). -/
def histScanDone (store : List Chunk) (hist0 : List Message) (inp : SendInput) : List Message :=
  scanResolved store inp (histAfterNotice hist0 inp)

/-- History after the empty streaming assistant message is appended. -/
def histWithStream (store : List Chunk) (hist0 : List Message) (inp : SendInput) : List Message :=
  histScanDone store hist0 inp ++ [streamMsg inp]

/-- Final history of a completed generation: the accumulated body is kept and
the streaming flag is cleared. -/
def finalOk (store : List Chunk) (hist0 : List Message) (inp : SendInput)
    (incs : List String) : List Message :=
  clearStreaming (streamMsg inp).id
    (lastStreamState (streamMsg inp).id (histWithStream store hist0 inp) incs)

/-- Final history of a faulted generation: the catch block appends the fixed
error notice (and touches nothing else). -/
def finalFault (store : List Chunk) (hist0 : List Message) (inp : SendInput)
    (incs : List String) : List Message :=
  lastStreamState (streamMsg inp).id (histWithStream store hist0 inp) incs ++ [faultMsg inp]

/-- Final history of the offline fallback: the fixed offline notice is
appended (inside a `setTimeout`; no assistant message was created). -/
def finalOffline (store : List Chunk) (hist0 : List Message) (inp : SendInput) : List Message :=
  histScanDone store hist0 inp ++ [offlineMsg inp]

/-- The ordered trace of history snapshots produced by one call of
`handleSend`, one snapshot per `setHistory` call (the initial history
included).  Mirrors `src/index.tsx` lines 425-513:

* guard: empty (trimmed) input or an active pipeline returns synchronously;
* the user message, then the scan notice, are appended;
* the scan resolves (mutate-in-place on ≥ 1 fragments, remove system
  messages on 0);
* with an API key: the empty streaming assistant message is appended, each
  increment rewrites its body, then either the streaming flag is cleared
  (completion) or the error notice is appended (fault, caught at the
  `handleSend` boundary);
* without an API key: the fixed offline notice is appended (after a timeout). -/
def handleSendTrace (store : List Chunk) (hist0 : List Message) (isProcessing : Bool)
    (inp : SendInput) : List (List Message) :=
  if jsTrim inp.input = "" ∨ isProcessing = true then [hist0]
  else if inp.apiKey = true then
    match inp.gen with
    | GenOutcome.ok incs =>
        [hist0, histAfterUser hist0 inp, histAfterNotice hist0 inp,
         histScanDone store hist0 inp, histWithStream store hist0 inp] ++
          streamingStates (streamMsg inp).id (histWithStream store hist0 inp) incs ++
          [finalOk store hist0 inp incs]
    | GenOutcome.fault incs =>
        [hist0, histAfterUser hist0 inp, histAfterNotice hist0 inp,
         histScanDone store hist0 inp, histWithStream store hist0 inp] ++
          streamingStates (streamMsg inp).id (histWithStream store hist0 inp) incs ++
          [finalFault store hist0 inp incs]
  else
    [hist0, histAfterUser hist0 inp, histAfterNotice hist0 inp,
     histScanDone store hist0 inp, finalOffline store hist0 inp]

/-- The history once the pipeline for `inp` has fully resolved. -/
def finalHistory (store : List Chunk) (hist0 : List Message) (isProcessing : Bool)
    (inp : SendInput) : List Message :=
  (handleSendTrace store hist0 isProcessing inp).getLastD []


/-- Execution prefix of the offline race in `handleSend`: a directive `inp1`
ran without an API key, so its `finally` (src/index.tsx:511) has already
cleared `isProcessing` while its offline notice is still pending in the
500ms `setTimeout` (lines 502-504).  A second directive `inp2` submitted in
that window passes the guard of line 427 (the flag is false again, so only
the empty-input check remains) and synchronously appends its user message
and its scan notice; the pending timeout — scheduled before `inp2`'s 600ms
cinematic delay began — then fires during that delay, appending `inp1`'s
offline notice; after the delay `inp2`'s scan resolves on the interleaved
history.  Snapshots: the history as `inp1`'s synchronous part left it,
`inp2`'s two appends, the delayed offline append, and `inp2`'s scan
resolution (the rest of `inp2`'s pipeline continues from there as usual). -/
def offlineWindowTrace (store : List Chunk) (hist0 : List Message)
    (inp1 inp2 : SendInput) : List (List Message) :=
  if jsTrim inp2.input = "" then
    [histScanDone store hist0 inp1, histScanDone store hist0 inp1 ++ [offlineMsg inp1]]
  else
    [histScanDone store hist0 inp1,
     histScanDone store hist0 inp1 ++ [userMsg inp2],
     histScanDone store hist0 inp1 ++ [userMsg inp2] ++ [scanMsg inp2],
     histScanDone store hist0 inp1 ++ [userMsg inp2] ++ [scanMsg inp2] ++ [offlineMsg inp1],
     scanResolved store inp2
       (histScanDone store hist0 inp1 ++ [userMsg inp2] ++ [scanMsg inp2] ++ [offlineMsg inp1])]

/-! ### Infrastructure lemmas -/

theorem isSublistOf_iff [DecidableEq α] (needle hay : List α) :
    isSublistOf needle hay = true ↔ needle <:+: hay := by
  induction hay with
  | nil => simp [isSublistOf, List.isEmpty_iff]
  | cons a tl ih =>
      simp [isSublistOf, ih, List.infix_cons_iff]

theorem includes_iff (s sub : String) : includes s sub = true ↔ sub.data <:+: s.data :=
  isSublistOf_iff sub.data s.data

theorem digitChar_isDigit {d : Nat} (h : d < 10) : (Nat.digitChar d).isDigit = true := by
  interval_cases d <;> decide

theorem toDigitsCore_digits (fuel : Nat) :
    ∀ (n : Nat) (ds : List Char), (∀ c ∈ ds, c.isDigit = true) →
      ∀ c ∈ Nat.toDigitsCore 10 fuel n ds, c.isDigit = true := by
  induction fuel with
  | zero => intro n ds hds c hc; exact hds c hc
  | succ f ih =>
      intro n ds hds c hc
      rw [Nat.toDigitsCore] at hc
      split at hc
      · rcases List.mem_cons.mp hc with rfl | hmem
        · exact digitChar_isDigit (Nat.mod_lt _ (by decide))
        · exact hds c hmem
      · refine ih _ _ ?_ c hc
        intro c' hc'
        rcases List.mem_cons.mp hc' with rfl | hmem
        · exact digitChar_isDigit (Nat.mod_lt _ (by decide))
        · exact hds c' hmem

theorem toString_nat_digits (n : Nat) : ∀ c ∈ (toString n).data, c.isDigit = true := by
  have h : (toString n).data = Nat.toDigitsCore 10 (n + 1) n [] := rfl
  rw [h]
  exact toDigitsCore_digits (n + 1) n [] (by intro c hc; cases hc)

theorem toString_nat_ne_of_head (n : Nat) (s : String) (c : Char) (rest : List Char)
    (hs : s.data = c :: rest) (hc : c.isDigit = false) : toString n ≠ s := by
  intro he
  have hmem : c ∈ (toString n).data := by
    rw [he, hs]; exact List.mem_cons_self _ _
  have := toString_nat_digits n c hmem
  rw [hc] at this
  exact Bool.noConfusion this

theorem string_ne_of_head {s t : String} {c d : Char} {rs rt : List Char}
    (hs : s.data = c :: rs) (ht : t.data = d :: rt) (h : c ≠ d) : s ≠ t := by
  intro he
  rw [he, ht] at hs
  exact h (List.head_eq_of_cons_eq hs.symm)

theorem userId_ne_scanId (inp : SendInput) : (userMsg inp).id ≠ (scanMsg inp).id :=
  toString_nat_ne_of_head inp.t _ 's' _ rfl rfl

theorem userId_ne_streamId (inp : SendInput) : (userMsg inp).id ≠ (streamMsg inp).id :=
  toString_nat_ne_of_head inp.t _ 'a' _ rfl rfl

theorem userId_ne_err (inp : SendInput) : (userMsg inp).id ≠ "err" :=
  toString_nat_ne_of_head inp.t _ 'e' _ rfl rfl

theorem scanId_ne_streamId (inp : SendInput) : (scanMsg inp).id ≠ (streamMsg inp).id :=
  string_ne_of_head rfl rfl (by decide)

theorem scanId_ne_err (inp : SendInput) : (scanMsg inp).id ≠ "err" :=
  string_ne_of_head rfl rfl (by decide)

theorem streamId_ne_err (inp : SendInput) : (streamMsg inp).id ≠ "err" :=
  string_ne_of_head rfl rfl (by decide)

theorem joinSep_single (sep a : String) : joinSep sep [a] = a := rfl

theorem joinSep_cons2 (sep a b : String) (l : List String) :
    joinSep sep (a :: b :: l) = a ++ sep ++ joinSep sep (b :: l) := rfl

theorem join_concat (l : List String) (a : String) :
    String.join (l ++ [a]) = String.join l ++ a := by
  simp [String.join, List.foldl_append]

theorem mem_setContent_of_ne {m : Message} {h : List Message} {aid body : String}
    (hm : m ∈ h) (hid : m.id ≠ aid) : m ∈ setContent aid body h := by
  unfold setContent
  exact List.mem_map.mpr ⟨m, hm, by simp [hid]⟩

theorem mem_clearStreaming_of_ne {m : Message} {h : List Message} {aid : String}
    (hm : m ∈ h) (hid : m.id ≠ aid) : m ∈ clearStreaming aid h := by
  unfold clearStreaming
  exact List.mem_map.mpr ⟨m, hm, by simp [hid]⟩

theorem of_mem_setContent {m : Message} {h : List Message} {aid body : String}
    (hm : m ∈ setContent aid body h) :
    ∃ m' ∈ h, m.id = m'.id ∧ m.role = m'.role ∧ m.isStreaming = m'.isStreaming := by
  rcases List.mem_map.mp hm with ⟨m', hm', he⟩
  refine ⟨m', hm', ?_⟩
  by_cases hid : m'.id = aid <;> simp [hid] at he <;> subst he <;> simp [hid]

theorem of_mem_clearStreaming {m : Message} {h : List Message} {aid : String}
    (hm : m ∈ clearStreaming aid h) :
    ∃ m' ∈ h, m.id = m'.id ∧ m.role = m'.role ∧ m.content = m'.content ∧
      (m.isStreaming = true → m'.isStreaming = true) := by
  rcases List.mem_map.mp hm with ⟨m', hm', he⟩
  refine ⟨m', hm', ?_⟩
  by_cases hid : m'.id = aid <;> simp [hid] at he <;> subst he <;> simp [hid]

theorem of_mem_lastStreamState {m : Message} {h : List Message} {aid : String}
    {incs : List String} (hm : m ∈ lastStreamState aid h incs) :
    ∃ m' ∈ h, m.id = m'.id ∧ m.role = m'.role ∧ m.isStreaming = m'.isStreaming := by
  cases incs with
  | nil => exact ⟨m, hm, rfl, rfl, rfl⟩
  | cons a l => exact of_mem_setContent hm

theorem mem_lastStreamState_of_ne {m : Message} {h : List Message} {aid : String}
    {incs : List String} (hm : m ∈ h) (hid : m.id ≠ aid) :
    m ∈ lastStreamState aid h incs := by
  cases incs with
  | nil => exact hm
  | cons a l => exact mem_setContent_of_ne hm hid

theorem mem_removeSystem {m : Message} {h : List Message} :
    m ∈ removeSystem h ↔ m ∈ h ∧ m.role ≠ Role.system := by
  simp [removeSystem]

theorem mutateLastSystem_concat (n : Nat) (l : List Message) (m : Message)
    (hm : m.role = Role.system) :
    mutateLastSystem n (l ++ [m]) = l ++ [identifiedMsg n m] := by
  simp [mutateLastSystem, List.getLast?_concat, hm, List.dropLast_concat]

theorem scanResolved_concat_pos (store : List Chunk) (inp : SendInput) (l : List Message)
    (hpos : 0 < (relevantChunks inp.input store).length) :
    scanResolved store inp (l ++ [scanMsg inp]) =
      l ++ [identifiedMsg (relevantChunks inp.input store).length (scanMsg inp)] := by
  simp only [scanResolved, if_pos hpos]
  exact mutateLastSystem_concat _ _ _ rfl

theorem scanResolved_eq_remove (store : List Chunk) (inp : SendInput) (h : List Message)
    (hz : relevantChunks inp.input store = []) :
    scanResolved store inp h = removeSystem h := by
  simp [scanResolved, hz]

theorem histScanDone_pos (store : List Chunk) (hist0 : List Message) (inp : SendInput)
    (hpos : 0 < (relevantChunks inp.input store).length) :
    histScanDone store hist0 inp =
      histAfterUser hist0 inp ++
        [identifiedMsg (relevantChunks inp.input store).length (scanMsg inp)] := by
  unfold histScanDone histAfterNotice
  exact scanResolved_concat_pos store inp _ hpos

theorem histScanDone_zero (store : List Chunk) (hist0 : List Message) (inp : SendInput)
    (hz : relevantChunks inp.input store = []) :
    histScanDone store hist0 inp = removeSystem (histAfterNotice hist0 inp) := by
  unfold histScanDone
  exact scanResolved_eq_remove store inp _ hz

theorem handleSendTrace_ok (store : List Chunk) (hist0 : List Message) (inp : SendInput)
    (incs : List String) (htrim : jsTrim inp.input ≠ "") (hkey : inp.apiKey = true)
    (hgen : inp.gen = GenOutcome.ok incs) :
    handleSendTrace store hist0 false inp =
      [hist0, histAfterUser hist0 inp, histAfterNotice hist0 inp,
       histScanDone store hist0 inp, histWithStream store hist0 inp] ++
        streamingStates (streamMsg inp).id (histWithStream store hist0 inp) incs ++
        [finalOk store hist0 inp incs] := by
  simp [handleSendTrace, htrim, hkey, hgen]

theorem handleSendTrace_fault (store : List Chunk) (hist0 : List Message) (inp : SendInput)
    (incs : List String) (htrim : jsTrim inp.input ≠ "") (hkey : inp.apiKey = true)
    (hgen : inp.gen = GenOutcome.fault incs) :
    handleSendTrace store hist0 false inp =
      [hist0, histAfterUser hist0 inp, histAfterNotice hist0 inp,
       histScanDone store hist0 inp, histWithStream store hist0 inp] ++
        streamingStates (streamMsg inp).id (histWithStream store hist0 inp) incs ++
        [finalFault store hist0 inp incs] := by
  simp [handleSendTrace, htrim, hkey, hgen]

theorem handleSendTrace_offline (store : List Chunk) (hist0 : List Message) (inp : SendInput)
    (htrim : jsTrim inp.input ≠ "") (hkey : inp.apiKey = false) :
    handleSendTrace store hist0 false inp =
      [hist0, histAfterUser hist0 inp, histAfterNotice hist0 inp,
       histScanDone store hist0 inp, finalOffline store hist0 inp] := by
  simp [handleSendTrace, htrim, hkey]

theorem finalHistory_ok (store : List Chunk) (hist0 : List Message) (inp : SendInput)
    (incs : List String) (htrim : jsTrim inp.input ≠ "") (hkey : inp.apiKey = true)
    (hgen : inp.gen = GenOutcome.ok incs) :
    finalHistory store hist0 false inp = finalOk store hist0 inp incs := by
  rw [finalHistory, handleSendTrace_ok store hist0 inp incs htrim hkey hgen]
  exact List.getLastD_concat _ _ _

theorem finalHistory_fault (store : List Chunk) (hist0 : List Message) (inp : SendInput)
    (incs : List String) (htrim : jsTrim inp.input ≠ "") (hkey : inp.apiKey = true)
    (hgen : inp.gen = GenOutcome.fault incs) :
    finalHistory store hist0 false inp = finalFault store hist0 inp incs := by
  rw [finalHistory, handleSendTrace_fault store hist0 inp incs htrim hkey hgen]
  exact List.getLastD_concat _ _ _

theorem finalHistory_offline (store : List Chunk) (hist0 : List Message) (inp : SendInput)
    (htrim : jsTrim inp.input ≠ "") (hkey : inp.apiKey = false) :
    finalHistory store hist0 false inp = finalOffline store hist0 inp := by
  rw [finalHistory, handleSendTrace_offline store hist0 inp htrim hkey]
  rfl

/-! ### Claim theorems -/

/-- Claim C3, counterexample: the filter is NOT the spec's fully
case-insensitive rule.  For the directive "q4 xyz", the fragment `chk3`
matches the spec's rule (its tag "Q4" is a case-insensitive substring of the
directive), yet the code's filter selects nothing, because the tag is
compared as written ("q4 xyz".includes("Q4") is false). -/
theorem C3_counterexample :
    specMatches "q4 xyz" chk3 = true ∧ relevantChunks "q4 xyz" MOCK_MEMORY = [] := by
  constructor <;> decide

/-- Claim C3 (amended): for every directive and store the filter selects
exactly those fragments whose lowercased body contains the lowercased
directive, or one of whose tags — as written, without case folding — is a
substring of the lowercased directive (case-insensitive in effect only for
all-lowercase tags); results come in store order (a sublist of the store);
and the filter returns the empty list exactly when no fragment matches
(it is total, hence never throws). -/
theorem C3_theorem : ∀ (d : String) (store : List Chunk),
    (relevantChunks d store).Sublist store ∧
    (∀ c : Chunk, c ∈ relevantChunks d store ↔
      c ∈ store ∧ ((toLowerCase d).data <:+: (toLowerCase c.content).data ∨
        ∃ t ∈ c.tags, t.data <:+: (toLowerCase d).data)) ∧
    (relevantChunks d store = [] ↔
      ∀ c ∈ store, ¬((toLowerCase d).data <:+: (toLowerCase c.content).data ∨
        ∃ t ∈ c.tags, t.data <:+: (toLowerCase d).data)) := by
  intro d store
  have hmatch : ∀ c : Chunk, matchesChunk d c = true ↔
      ((toLowerCase d).data <:+: (toLowerCase c.content).data ∨
        ∃ t ∈ c.tags, t.data <:+: (toLowerCase d).data) := by
    intro c
    simp [matchesChunk, List.any_eq_true, includes_iff]
  refine ⟨List.filter_sublist _, ?_, ?_⟩
  · intro c
    rw [relevantChunks, List.mem_filter, hmatch]
  · rw [relevantChunks, List.filter_eq_nil_iff]
    constructor
    · intro h c hc
      rw [← hmatch]
      intro hb
      exact h c hc hb
    · intro h c hc
      rw [hmatch]
      exact h c hc

/-- Claim C3, witness instance of the amended characterisation at the
directive "go" and the mock store. -/
theorem C3_witness :
    chk1 ∈ relevantChunks "go" MOCK_MEMORY ↔
      chk1 ∈ MOCK_MEMORY ∧ ((toLowerCase "go").data <:+: (toLowerCase chk1.content).data ∨
        ∃ t ∈ chk1.tags, t.data <:+: (toLowerCase "go").data) :=
  ( C3_theorem "go" MOCK_MEMORY).2.1 chk1

/-- Claim C7: every fragment is rendered as the single block
`[REF: <id> | <PROVENANCE>]: <body>` with the provenance upper-cased; blocks
are joined by a blank line in the order received; a non-empty fragment list
is rendered as-is (never replaced by the sentinel); and the empty list yields
the sentinel "No archival data found." rather than the empty string. -/
theorem C7_theorem :
    contextOrSentinel [] = "No archival data found." ∧
    (∀ c : Chunk, contextBlock [c] =
      "[REF: " ++ c.id ++ " | " ++ toUpperCase c.source ++ "]: " ++ c.content) ∧
    (∀ (c c' : Chunk) (cs : List Chunk),
      contextBlock (c :: c' :: cs) = contextBlock [c] ++ "\n\n" ++ contextBlock (c' :: cs)) ∧
    (∀ (c : Chunk) (cs : List Chunk), contextOrSentinel (c :: cs) = contextBlock (c :: cs)) := by
  refine ⟨rfl, fun c => rfl, fun c c' cs => rfl, fun c cs => ?_⟩
  have h6 : ("[REF: " : String).length = 6 := rfl
  have hlen : 6 ≤ (contextBlock (c :: cs)).length := by
    cases cs with
    | nil =>
        simp only [contextBlock, List.map_cons, List.map_nil, joinSep_single,
          String.length_append, h6]
        omega
    | cons c' cs' =>
        simp only [contextBlock, List.map_cons, joinSep_cons2,
          String.length_append, h6]
        omega
  have hne : contextBlock (c :: cs) ≠ "" := by
    intro h
    rw [h] at hlen
    exact absurd hlen (by decide)
  simp [contextOrSentinel, hne]

/-- Claim C7, witness instance at a one-fragment list. -/
theorem C7_witness :
    contextOrSentinel [chk1] =
      "[REF: " ++ chk1.id ++ " | " ++ toUpperCase chk1.source ++ "]: " ++ chk1.content := by
  rw [C7_theorem.2.2.2 chk1 []]
  exact C7_theorem.2.1 chk1

/-- Claim C9: re-running the context assembly on the same ordered input
yields a character-for-character identical block; moreover the output is a
deterministic function of only the ordered (id, provenance, body) data of
the fragments, so any two runs over equal ordered inputs agree. -/
theorem C9_theorem : ∀ cs cs' : List Chunk,
    contextBlock cs = contextBlock cs ∧
    ((cs.map fun c => (c.id, c.source, c.content)) =
        (cs'.map fun c => (c.id, c.source, c.content)) →
      contextBlock cs = contextBlock cs') := by
  have key : ∀ l : List Chunk,
      contextBlock l = joinSep "\n\n"
        ((l.map fun c => (c.id, c.source, c.content)).map fun p =>
          "[REF: " ++ p.1 ++ " | " ++ toUpperCase p.2.1 ++ "]: " ++ p.2.2) := by
    intro l
    rw [contextBlock, List.map_map]
    rfl
  intro cs cs'
  refine ⟨rfl, fun h => ?_⟩
  rw [key cs, key cs', h]

/-- Claim C9, witness instance: assembling the mock store twice gives
identical output. -/
theorem C9_witness : contextBlock MOCK_MEMORY = contextBlock MOCK_MEMORY :=
  (C9_theorem MOCK_MEMORY MOCK_MEMORY).2 rfl

theorem mutateLastSystem_concat_nonsystem (n : Nat) (l : List Message) (m : Message)
    (hm : m.role ≠ Role.system) :
    mutateLastSystem n (l ++ [m]) = l ++ [m] := by
  simp [mutateLastSystem, List.getLast?_concat, hm]

theorem mem_cases_histScanDone {store : List Chunk} {hist0 : List Message} {inp : SendInput}
    {m : Message} (hm : m ∈ histScanDone store hist0 inp) :
    m ∈ hist0 ∨ m = userMsg inp ∨ m = scanMsg inp ∨
      m = identifiedMsg (relevantChunks inp.input store).length (scanMsg inp) := by
  by_cases hpos : 0 < (relevantChunks inp.input store).length
  · rw [histScanDone_pos store hist0 inp hpos] at hm
    rcases List.mem_append.mp hm with h | h
    · rcases List.mem_append.mp h with h' | h'
      · exact Or.inl h'
      · simp only [List.mem_singleton] at h'
        exact Or.inr (Or.inl h')
    · simp only [List.mem_singleton] at h
      exact Or.inr (Or.inr (Or.inr h))
  · rw [histScanDone_zero store hist0 inp (List.length_eq_zero.mp (by omega))] at hm
    have h2 := (mem_removeSystem.mp hm).1
    rcases List.mem_append.mp h2 with h | h
    · rcases List.mem_append.mp h with h' | h'
      · exact Or.inl h'
      · simp only [List.mem_singleton] at h'
        exact Or.inr (Or.inl h')
    · simp only [List.mem_singleton] at h
      exact Or.inr (Or.inr (Or.inl h))

theorem offlineWindowTrace_eq (store : List Chunk) (hist0 : List Message)
    (inp1 inp2 : SendInput) (htrim : jsTrim inp2.input ≠ "") :
    offlineWindowTrace store hist0 inp1 inp2 =
      [histScanDone store hist0 inp1,
       histScanDone store hist0 inp1 ++ [userMsg inp2],
       histScanDone store hist0 inp1 ++ [userMsg inp2] ++ [scanMsg inp2],
       histScanDone store hist0 inp1 ++ [userMsg inp2] ++ [scanMsg inp2] ++ [offlineMsg inp1],
       scanResolved store inp2
         (histScanDone store hist0 inp1 ++ [userMsg inp2] ++ [scanMsg inp2] ++
           [offlineMsg inp1])] := by
  simp [offlineWindowTrace, htrim]

/-- Claim C6, counterexample: directive "go" is submitted while the offline
pipeline of "status report" is still active (its offline notice is pending
in the 500ms `setTimeout`, but the `finally` has already cleared
`isProcessing`).  The second directive is NOT rejected — its user message
(id "200") is in the very next snapshot — at which point, and in the
snapshot after, the first pipeline's terminal offline notice (id "err") is
nowhere in the history; the notice lands only afterwards, between the second
pipeline's mutations: the two pipelines' history mutations interleave,
refuting all three conjuncts of the claim. -/
theorem C6_counterexample :
    (((offlineWindowTrace MOCK_MEMORY initHistory
          ⟨"status report", false, GenOutcome.ok [], 100⟩
          ⟨"go", true, GenOutcome.ok ["OK."], 200⟩).getD 1 []).any
        fun m => m.id == "200") = true ∧
    (((offlineWindowTrace MOCK_MEMORY initHistory
          ⟨"status report", false, GenOutcome.ok [], 100⟩
          ⟨"go", true, GenOutcome.ok ["OK."], 200⟩).getD 1 []).all
        fun m => !(m.id == "err")) = true ∧
    (((offlineWindowTrace MOCK_MEMORY initHistory
          ⟨"status report", false, GenOutcome.ok [], 100⟩
          ⟨"go", true, GenOutcome.ok ["OK."], 200⟩).getD 2 []).all
        fun m => !(m.id == "err")) = true ∧
    (((offlineWindowTrace MOCK_MEMORY initHistory
          ⟨"status report", false, GenOutcome.ok [], 100⟩
          ⟨"go", true, GenOutcome.ok ["OK."], 200⟩).getD 3 []).any
        fun m => m.id == "err") = true := by
  refine ⟨?_, ?_, ?_, ?_⟩ <;> decide

/-- Claim C6 (amended): a directive submitted while `isProcessing` is true is
rejected synchronously and the history is untouched, so in that regime the
rejected directive is never appended and no mutations interleave.  But the
serialization has a hole: the offline pipeline's `finally` clears
`isProcessing` before its delayed offline notice is appended, so a second
directive submitted in that window is accepted — its user message enters the
history while the first pipeline's terminal offline notice is still absent,
the notice lands only two snapshots later, and in the resulting history the
second directive's user message precedes the first pipeline's offline
notice: the two pipelines' history mutations interleave. -/
theorem C6_theorem : ∀ (store : List Chunk) (hist0 : List Message) (inp1 inp2 : SendInput),
    jsTrim inp2.input ≠ "" → offlineMsg inp1 ∉ hist0 →
    ((handleSendTrace store hist0 true inp2 = [hist0] ∧
      ∀ s ∈ handleSendTrace store hist0 true inp2, ∀ m ∈ s, m ∈ hist0) ∧
     (userMsg inp2 ∈ (offlineWindowTrace store hist0 inp1 inp2).getD 1 [] ∧
      offlineMsg inp1 ∉ (offlineWindowTrace store hist0 inp1 inp2).getD 1 [] ∧
      offlineMsg inp1 ∉ (offlineWindowTrace store hist0 inp1 inp2).getD 2 [] ∧
      offlineMsg inp1 ∈ (offlineWindowTrace store hist0 inp1 inp2).getD 3 [] ∧
      ∃ l₁ l₂ l₃, (offlineWindowTrace store hist0 inp1 inp2).getLastD [] =
        l₁ ++ userMsg inp2 :: (l₂ ++ offlineMsg inp1 :: l₃))) := by
  intro store hist0 inp1 inp2 htrim hfresh
  have hreject : handleSendTrace store hist0 true inp2 = [hist0] := by
    simp [handleSendTrace]
  have htr := offlineWindowTrace_eq store hist0 inp1 inp2 htrim
  have hoff_scan : offlineMsg inp1 ∉ histScanDone store hist0 inp1 := by
    intro hmem
    rcases mem_cases_histScanDone hmem with h | h | h | h
    · exact hfresh h
    · simp [offlineMsg, userMsg] at h
    · simp [offlineMsg, scanMsg] at h
    · simp [offlineMsg, identifiedMsg, scanMsg] at h
  refine ⟨⟨hreject, ?_⟩, ?_, ?_, ?_, ?_, ?_⟩
  · rw [hreject]
    intro s hs m hm
    simp only [List.mem_singleton] at hs
    subst hs
    exact hm
  · rw [htr]
    show userMsg inp2 ∈ histScanDone store hist0 inp1 ++ [userMsg inp2]
    simp
  · rw [htr]
    show offlineMsg inp1 ∉ histScanDone store hist0 inp1 ++ [userMsg inp2]
    intro hmem
    rcases List.mem_append.mp hmem with h | h
    · exact hoff_scan h
    · simp only [List.mem_singleton] at h
      simp [offlineMsg, userMsg] at h
  · rw [htr]
    show offlineMsg inp1 ∉
      histScanDone store hist0 inp1 ++ [userMsg inp2] ++ [scanMsg inp2]
    intro hmem
    rcases List.mem_append.mp hmem with h | h
    · rcases List.mem_append.mp h with h' | h'
      · exact hoff_scan h'
      · simp only [List.mem_singleton] at h'
        simp [offlineMsg, userMsg] at h'
    · simp only [List.mem_singleton] at h
      simp [offlineMsg, scanMsg] at h
  · rw [htr]
    show offlineMsg inp1 ∈
      histScanDone store hist0 inp1 ++ [userMsg inp2] ++ [scanMsg inp2] ++ [offlineMsg inp1]
    simp
  · rw [htr]
    show ∃ l₁ l₂ l₃, scanResolved store inp2
        (histScanDone store hist0 inp1 ++ [userMsg inp2] ++ [scanMsg inp2] ++
          [offlineMsg inp1]) =
      l₁ ++ userMsg inp2 :: (l₂ ++ offlineMsg inp1 :: l₃)
    by_cases hpos : 0 < (relevantChunks inp2.input store).length
    · have hres : scanResolved store inp2
          (histScanDone store hist0 inp1 ++ [userMsg inp2] ++ [scanMsg inp2] ++
            [offlineMsg inp1]) =
          histScanDone store hist0 inp1 ++ [userMsg inp2] ++ [scanMsg inp2] ++
            [offlineMsg inp1] := by
        unfold scanResolved
        rw [if_pos hpos]
        exact mutateLastSystem_concat_nonsystem _ _ _ (by simp [offlineMsg])
      rw [hres]
      exact ⟨histScanDone store hist0 inp1, [scanMsg inp2], [], by simp⟩
    · have hz : relevantChunks inp2.input store = [] := List.length_eq_zero.mp (by omega)
      rw [scanResolved_eq_remove store inp2 _ hz]
      refine ⟨removeSystem (histScanDone store hist0 inp1), [], [], ?_⟩
      simp [removeSystem, List.filter_append, userMsg, scanMsg, offlineMsg]

/-- Claim C6, witness instance of the amended claim: the guard rejects a
directive while the flag is set, and a directive submitted in the offline
window of another is accepted — its user message is in the next snapshot. -/
theorem C6_witness :
    handleSendTrace MOCK_MEMORY initHistory true
      ⟨"go", true, GenOutcome.ok ["OK."], 200⟩ = [initHistory] ∧
    userMsg ⟨"go", true, GenOutcome.ok ["OK."], 200⟩ ∈
      (offlineWindowTrace MOCK_MEMORY initHistory
        ⟨"status report", false, GenOutcome.ok [], 100⟩
        ⟨"go", true, GenOutcome.ok ["OK."], 200⟩).getD 1 [] := by
  have h := C6_theorem MOCK_MEMORY initHistory
    ⟨"status report", false, GenOutcome.ok [], 100⟩
    ⟨"go", true, GenOutcome.ok ["OK."], 200⟩ (by decide) (by decide)
  exact ⟨h.1.1, h.2.1⟩

/-- Claim C10: when the scan selects zero fragments, the resolving history
update removes every system-role message from the entire history (including
any from before this directive), keeps the result a sublist of the previous
history (relative order preserved), retains every non-system message
(including the just-appended user message), and is exactly the fourth
snapshot of the pipeline's trace. -/
theorem C10_theorem : ∀ (store : List Chunk) (hist0 : List Message) (inp : SendInput),
    jsTrim inp.input ≠ "" → relevantChunks inp.input store = [] →
    ((∀ m ∈ histScanDone store hist0 inp, m.role ≠ Role.system) ∧
     (histScanDone store hist0 inp).Sublist (hist0 ++ [userMsg inp, scanMsg inp]) ∧
     (∀ m ∈ hist0, m.role ≠ Role.system → m ∈ histScanDone store hist0 inp) ∧
     userMsg inp ∈ histScanDone store hist0 inp ∧
     (handleSendTrace store hist0 false inp).getD 3 [] = histScanDone store hist0 inp) := by
  intro store hist0 inp htrim hz
  have hdone : histScanDone store hist0 inp = removeSystem (histAfterNotice hist0 inp) :=
    histScanDone_zero store hist0 inp hz
  have hshape : histAfterNotice hist0 inp = hist0 ++ [userMsg inp, scanMsg inp] := by
    simp [histAfterNotice, histAfterUser]
  refine ⟨?_, ?_, ?_, ?_, ?_⟩
  · intro m hm
    rw [hdone] at hm
    exact (mem_removeSystem.mp hm).2
  · rw [hdone, ← hshape]
    exact List.filter_sublist _
  · intro m hm hrole
    rw [hdone]
    refine mem_removeSystem.mpr ⟨?_, hrole⟩
    rw [hshape]
    exact List.mem_append.mpr (Or.inl hm)
  · rw [hdone]
    refine mem_removeSystem.mpr ⟨?_, by simp [userMsg]⟩
    rw [hshape]
    simp
  · by_cases hkey : inp.apiKey = true
    · rcases hg : inp.gen with incs | incs
      · rw [handleSendTrace_ok store hist0 inp incs htrim hkey hg]
        rfl
      · rw [handleSendTrace_fault store hist0 inp incs htrim hkey hg]
        rfl
    · have hkey' : inp.apiKey = false := by
        revert hkey
        cases inp.apiKey <;> simp
      rw [handleSendTrace_offline store hist0 inp htrim hkey']
      rfl

/-- Claim C10, witness instance at the no-match directive of Scenario B. -/
theorem C10_witness :
    (∀ m ∈ histScanDone MOCK_MEMORY initHistory
        ⟨"unrelated query xyz", true, GenOutcome.ok [], 50⟩, m.role ≠ Role.system) ∧
    userMsg ⟨"unrelated query xyz", true, GenOutcome.ok [], 50⟩ ∈
      histScanDone MOCK_MEMORY initHistory ⟨"unrelated query xyz", true, GenOutcome.ok [], 50⟩ := by
  have h := C10_theorem MOCK_MEMORY initHistory
    ⟨"unrelated query xyz", true, GenOutcome.ok [], 50⟩ (by decide) (by decide)
  exact ⟨h.1, h.2.2.2.1⟩

/-- Claim C2: evaluation of the code at the failing input (API key present,
generator yields "Sys" and then raises).  The catch block does append the
fixed error notice, but the streaming assistant message keeps
`isStreaming = true` in the final history — the dangling flag the claim
(and the spec's propagation policy / Scenario E) forbids. -/
theorem C2_theorem :
    ((finalHistory MOCK_MEMORY initHistory false
        ⟨"go", true, GenOutcome.fault ["Sys"], 100⟩).any
      fun m => m.isStreaming) = true ∧
    ((finalHistory MOCK_MEMORY initHistory false
        ⟨"go", true, GenOutcome.fault ["Sys"], 100⟩).any
      fun m => m.content == "CRITICAL_ERROR: Processing matrix interruption.") = true := by
  constructor <;> decide

/-- Claim C1, counterexample: for the directive "go" (one fragment matches)
with a working backend, the mutated system notice is still present in the
final history after the whole pipeline has resolved — it is never removed,
contradicting "no system-notice message remains in the history after the
scan resolves". -/
theorem C1_counterexample :
    ((finalHistory MOCK_MEMORY initHistory false
        ⟨"go", true, GenOutcome.ok ["OK."], 100⟩).any
      fun m => m.role == Role.system) = true := by
  decide

/-- Claim C1 (amended): if the scan selects zero fragments, the system notice
(indeed every system-role message) is removed immediately without mutation and
the final history contains no system-role message; if it selects `n ≥ 1`
fragments, the notice is mutated in place to report the count and then
persists — the mutated notice is still a member of the final history once the
pipeline resolves (it is removed later only if some subsequent scan selects
zero fragments). -/
theorem C1_theorem : ∀ (store : List Chunk) (hist0 : List Message) (inp : SendInput),
    jsTrim inp.input ≠ "" →
    ((relevantChunks inp.input store = [] →
        ∀ m ∈ finalHistory store hist0 false inp, m.role ≠ Role.system) ∧
     (0 < (relevantChunks inp.input store).length →
        identifiedMsg (relevantChunks inp.input store).length (scanMsg inp) ∈
          finalHistory store hist0 false inp)) := by
  intro store hist0 inp htrim
  constructor
  · -- zero fragments: no system message survives anywhere in the final history
    intro hz m hm
    have hz' : histScanDone store hist0 inp = removeSystem (histAfterNotice hist0 inp) :=
      histScanDone_zero store hist0 inp hz
    have hscan : ∀ m' ∈ histScanDone store hist0 inp, m'.role ≠ Role.system := by
      intro m' hm'
      rw [hz'] at hm'
      exact (mem_removeSystem.mp hm').2
    have hstream : ∀ m' ∈ histWithStream store hist0 inp, m'.role ≠ Role.system := by
      intro m' hm'
      rcases List.mem_append.mp hm' with h | h
      · exact hscan m' h
      · simp only [List.mem_singleton] at h
        subst h
        simp [streamMsg]
    by_cases hkey : inp.apiKey = true
    · rcases hg : inp.gen with incs | incs
      · rw [finalHistory_ok store hist0 inp incs htrim hkey hg] at hm
        rcases of_mem_clearStreaming hm with ⟨m₁, hm₁, _, hrole₁, _⟩
        rcases of_mem_lastStreamState hm₁ with ⟨m₂, hm₂, _, hrole₂, _⟩
        rw [hrole₁, hrole₂]
        exact hstream m₂ hm₂
      · rw [finalHistory_fault store hist0 inp incs htrim hkey hg] at hm
        rcases List.mem_append.mp hm with h | h
        · rcases of_mem_lastStreamState h with ⟨m₂, hm₂, _, hrole₂, _⟩
          rw [hrole₂]
          exact hstream m₂ hm₂
        · simp only [List.mem_singleton] at h
          subst h
          simp [faultMsg]
    · have hkey' : inp.apiKey = false := by
        revert hkey
        cases inp.apiKey <;> simp
      rw [finalHistory_offline store hist0 inp htrim hkey'] at hm
      rcases List.mem_append.mp hm with h | h
      · exact hscan m h
      · simp only [List.mem_singleton] at h
        subst h
        simp [offlineMsg]
  · -- at least one fragment: the mutated notice persists in the final history
    intro hpos
    have hdone : identifiedMsg (relevantChunks inp.input store).length (scanMsg inp) ∈
        histScanDone store hist0 inp := by
      rw [histScanDone_pos store hist0 inp hpos]
      simp
    have hid : (identifiedMsg (relevantChunks inp.input store).length (scanMsg inp)).id ≠
        (streamMsg inp).id := scanId_ne_streamId inp
    by_cases hkey : inp.apiKey = true
    · rcases hg : inp.gen with incs | incs
      · rw [finalHistory_ok store hist0 inp incs htrim hkey hg]
        refine mem_clearStreaming_of_ne ?_ hid
        refine mem_lastStreamState_of_ne ?_ hid
        exact List.mem_append.mpr (Or.inl hdone)
      · rw [finalHistory_fault store hist0 inp incs htrim hkey hg]
        refine List.mem_append.mpr (Or.inl ?_)
        refine mem_lastStreamState_of_ne ?_ hid
        exact List.mem_append.mpr (Or.inl hdone)
    · have hkey' : inp.apiKey = false := by
        revert hkey
        cases inp.apiKey <;> simp
      rw [finalHistory_offline store hist0 inp htrim hkey']
      exact List.mem_append.mpr (Or.inl hdone)

/-- Claim C1, witness instance of the amended claim: for directive "go" the
mutated count notice is in the final history. -/
theorem C1_witness :
    identifiedMsg (relevantChunks "go" MOCK_MEMORY).length
        (scanMsg ⟨"go", true, GenOutcome.ok ["OK."], 100⟩) ∈
      finalHistory MOCK_MEMORY initHistory false ⟨"go", true, GenOutcome.ok ["OK."], 100⟩ :=
  (C1_theorem MOCK_MEMORY initHistory ⟨"go", true, GenOutcome.ok ["OK."], 100⟩
    (by decide)).2 (by decide)

/-- Claim C5, counterexample: in the offline run of Scenario C (backend
unusable, directive "status report"), no snapshot of the pipeline's history
ever contains a message with empty body or with the streaming flag set — so
no "empty assistant message" exists at any point, and nothing is replaced:
the offline notice is appended, contradicting "the empty assistant message is
replaced by a fixed offline-notice message". -/
theorem C5_counterexample :
    ((handleSendTrace MOCK_MEMORY initHistory false
        ⟨"status report", false, GenOutcome.ok [], 100⟩).all
      fun s => s.all fun m => !(m.content == "") && !m.isStreaming) = true := by
  decide

/-- Claim C5 (amended): when the backend is unusable (missing API key), no
empty assistant message is ever created; instead the fixed offline notice
(streaming flag unset) is appended, and once the pipeline (including the
delayed append) resolves it is the last message of the history; every message
of the final history with the streaming flag set would have to come from the
initial history. -/
theorem C5_theorem : ∀ (store : List Chunk) (hist0 : List Message) (inp : SendInput),
    jsTrim inp.input ≠ "" → inp.apiKey = false →
    ((finalHistory store hist0 false inp).getLast? = some (offlineMsg inp) ∧
     ∀ m ∈ finalHistory store hist0 false inp, m.isStreaming = true → m ∈ hist0) := by
  intro store hist0 inp htrim hkey
  rw [finalHistory_offline store hist0 inp htrim hkey]
  constructor
  · exact List.getLast?_concat _
  · intro m hm hstr
    rcases List.mem_append.mp hm with h | h
    · -- m is in the scan-resolved history: user/scan/mutated notices are not streaming
      by_cases hpos : 0 < (relevantChunks inp.input store).length
      · rw [histScanDone_pos store hist0 inp hpos] at h
        rcases List.mem_append.mp h with h' | h'
        · rcases List.mem_append.mp h' with h'' | h''
          · exact h''
          · simp only [List.mem_singleton] at h''
            subst h''
            simp [userMsg] at hstr
        · simp only [List.mem_singleton] at h'
          subst h'
          simp [identifiedMsg, scanMsg] at hstr
      · have hz : relevantChunks inp.input store = [] :=
          List.length_eq_zero.mp (by omega)
        rw [histScanDone_zero store hist0 inp hz] at h
        have h2 := (mem_removeSystem.mp h).1
        rcases List.mem_append.mp h2 with h' | h'
        · rcases List.mem_append.mp h' with h'' | h''
          · exact h''
          · simp only [List.mem_singleton] at h''
            subst h''
            simp [userMsg] at hstr
        · simp only [List.mem_singleton] at h'
          subst h'
          simp [scanMsg] at hstr
    · simp only [List.mem_singleton] at h
      subst h
      simp [offlineMsg] at hstr

/-- Claim C5, witness instance of the amended claim at Scenario C. -/
theorem C5_witness :
    (finalHistory MOCK_MEMORY initHistory false
        ⟨"status report", false, GenOutcome.ok [], 100⟩).getLast? =
      some (offlineMsg ⟨"status report", false, GenOutcome.ok [], 100⟩) :=
  (C5_theorem MOCK_MEMORY initHistory ⟨"status report", false, GenOutcome.ok [], 100⟩
    (by decide) rfl).1

theorem setContent_concat (aid body : String) (l : List Message) (m : Message) :
    setContent aid body (l ++ [m]) =
      setContent aid body l ++ [if m.id = aid then { m with content := body } else m] := by
  simp [setContent]

theorem clearStreaming_concat (aid : String) (l : List Message) (m : Message) :
    clearStreaming aid (l ++ [m]) =
      clearStreaming aid l ++ [if m.id = aid then { m with isStreaming := false } else m] := by
  simp [clearStreaming]

theorem getLast?_setContent_stream (store : List Chunk) (hist0 : List Message)
    (inp : SendInput) (body : String) :
    (setContent (streamMsg inp).id body (histWithStream store hist0 inp)).getLast? =
      some ⟨(streamMsg inp).id, Role.assistant, body, inp.t + 2, true⟩ := by
  rw [histWithStream, setContent_concat, List.getLast?_concat]
  simp [streamMsg]

theorem getLast?_finalOk (store : List Chunk) (hist0 : List Message) (inp : SendInput)
    (incs : List String) :
    (finalOk store hist0 inp incs).getLast? =
      some ⟨(streamMsg inp).id, Role.assistant, String.join incs, inp.t + 2, false⟩ := by
  cases incs with
  | nil =>
      show (clearStreaming (streamMsg inp).id (histWithStream store hist0 inp)).getLast? = _
      rw [histWithStream, clearStreaming_concat, List.getLast?_concat]
      simp [streamMsg]
      rfl
  | cons a l =>
      show (clearStreaming (streamMsg inp).id
        (setContent (streamMsg inp).id (String.join (a :: l))
          (histWithStream store hist0 inp))).getLast? = _
      rw [histWithStream, setContent_concat, clearStreaming_concat, List.getLast?_concat]
      simp [streamMsg]

theorem streamingStates_length (aid : String) (h4 : List Message) (incs : List String) :
    (streamingStates aid h4 incs).length = incs.length := by
  simp [streamingStates]

theorem streamingStates_getD (aid : String) (h4 : List Message) (incs : List String)
    (j : Nat) (hj : j < incs.length) :
    (streamingStates aid h4 incs).getD j [] =
      setContent aid (String.join (incs.take (j + 1))) h4 := by
  rw [List.getD_eq_getElem?_getD, streamingStates, List.getElem?_map, List.getElem?_range hj]
  rfl

theorem getD_five_append (x0 x1 x2 x3 x4 : α) (rest : List α) (j : Nat) (d : α) :
    ([x0, x1, x2, x3, x4] ++ rest).getD (j + 5) d = rest.getD j d := by
  rw [List.getD_eq_getElem?_getD, List.getD_eq_getElem?_getD,
    List.getElem?_append_right (by simp)]
  simp

theorem getD_append_left (l₁ l₂ : List α) (j : Nat) (hj : j < l₁.length) (d : α) :
    (l₁ ++ l₂).getD j d = l₁.getD j d := by
  rw [List.getD_eq_getElem?_getD, List.getD_eq_getElem?_getD, List.getElem?_append_left hj]

theorem join_take_prefix (incs : List String) (j : Nat) :
    (String.join (incs.take j)).data <+: (String.join (incs.take (j + 1))).data := by
  by_cases hj : j < incs.length
  · rw [List.take_succ, List.getElem?_eq_getElem hj]
    simp only [Option.toList_some]
    rw [join_concat, String.data_append]
    exact List.prefix_append _ _
  · rw [List.take_of_length_le (by omega), List.take_of_length_le (by omega)]

/-- Claim C4: for a completed generation, after the `j`-th increment the
streaming assistant message (the last message of the corresponding history
snapshot) has body equal to the concatenation of the first `j + 1` increments
and still carries the streaming flag; each partial body is a prefix of the
next, so observers see the text grow monotonically; and in the final history
the assistant message's body is the concatenation of all increments with the
streaming flag cleared.  No hypothesis excludes an empty increment list: an
empty accumulated body completes normally. -/
theorem C4_theorem : ∀ (store : List Chunk) (hist0 : List Message) (inp : SendInput)
    (incs : List String), jsTrim inp.input ≠ "" → inp.apiKey = true →
    inp.gen = GenOutcome.ok incs →
    ((finalHistory store hist0 false inp).getLast? =
        some ⟨(streamMsg inp).id, Role.assistant, String.join incs, inp.t + 2, false⟩ ∧
     (∀ j : Nat, j < incs.length →
        ((handleSendTrace store hist0 false inp).getD (j + 5) []).getLast? =
          some ⟨(streamMsg inp).id, Role.assistant, String.join (incs.take (j + 1)),
            inp.t + 2, true⟩) ∧
     (∀ j : Nat, (String.join (incs.take j)).data <+: (String.join (incs.take (j + 1))).data)) := by
  intro store hist0 inp incs htrim hkey hgen
  refine ⟨?_, ?_, fun j => join_take_prefix incs j⟩
  · rw [finalHistory_ok store hist0 inp incs htrim hkey hgen]
    exact getLast?_finalOk store hist0 inp incs
  · intro j hj
    rw [handleSendTrace_ok store hist0 inp incs htrim hkey hgen, List.append_assoc,
      getD_five_append, getD_append_left _ _ j (by rw [streamingStates_length]; exact hj),
      streamingStates_getD _ _ _ j hj]
    exact getLast?_setContent_stream store hist0 inp _

/-- Claim C4, witness instance at Scenario D: increments ["Sys", "tem optimal."]
finish as body "System optimal." with the streaming flag cleared. -/
theorem C4_witness :
    (finalHistory MOCK_MEMORY initHistory false
        ⟨"status report", true, GenOutcome.ok ["Sys", "tem optimal."], 100⟩).getLast? =
      some ⟨(streamMsg ⟨"status report", true, GenOutcome.ok ["Sys", "tem optimal."], 100⟩).id,
        Role.assistant, "System optimal.", 102, false⟩ := by
  have h := (C4_theorem MOCK_MEMORY initHistory
    ⟨"status report", true, GenOutcome.ok ["Sys", "tem optimal."], 100⟩
    ["Sys", "tem optimal."] (by decide) rfl rfl).1
  have hjoin : String.join ["Sys", "tem optimal."] = "System optimal." := rfl
  rw [hjoin] at h
  exact h

theorem id_cases_histAfterUser {hist0 : List Message} {inp : SendInput} {m : Message}
    (hm : m ∈ histAfterUser hist0 inp) :
    m.id ∈ hist0.map (fun x => x.id) ∨ m.id = (userMsg inp).id := by
  rcases List.mem_append.mp hm with h | h
  · exact Or.inl (List.mem_map.mpr ⟨m, h, rfl⟩)
  · simp only [List.mem_singleton] at h
    subst h
    exact Or.inr rfl

theorem id_cases_histAfterNotice {hist0 : List Message} {inp : SendInput} {m : Message}
    (hm : m ∈ histAfterNotice hist0 inp) :
    m.id ∈ hist0.map (fun x => x.id) ∨ m.id = (userMsg inp).id ∨
      m.id = (scanMsg inp).id := by
  rcases List.mem_append.mp hm with h | h
  · rcases id_cases_histAfterUser h with h' | h'
    · exact Or.inl h'
    · exact Or.inr (Or.inl h')
  · simp only [List.mem_singleton] at h
    subst h
    exact Or.inr (Or.inr rfl)

theorem id_cases_histScanDone {store : List Chunk} {hist0 : List Message} {inp : SendInput}
    {m : Message} (hm : m ∈ histScanDone store hist0 inp) :
    m.id ∈ hist0.map (fun x => x.id) ∨ m.id = (userMsg inp).id ∨
      m.id = (scanMsg inp).id := by
  by_cases hpos : 0 < (relevantChunks inp.input store).length
  · rw [histScanDone_pos store hist0 inp hpos] at hm
    rcases List.mem_append.mp hm with h | h
    · rcases id_cases_histAfterUser h with h' | h'
      · exact Or.inl h'
      · exact Or.inr (Or.inl h')
    · simp only [List.mem_singleton] at h
      subst h
      exact Or.inr (Or.inr rfl)
  · rw [histScanDone_zero store hist0 inp (List.length_eq_zero.mp (by omega))] at hm
    exact id_cases_histAfterNotice (mem_removeSystem.mp hm).1

theorem id_cases_histWithStream {store : List Chunk} {hist0 : List Message} {inp : SendInput}
    {m : Message} (hm : m ∈ histWithStream store hist0 inp) :
    m.id ∈ hist0.map (fun x => x.id) ∨ m.id = (userMsg inp).id ∨
      m.id = (scanMsg inp).id ∨ m.id = (streamMsg inp).id := by
  rcases List.mem_append.mp hm with h | h
  · rcases id_cases_histScanDone h with h' | h' | h'
    · exact Or.inl h'
    · exact Or.inr (Or.inl h')
    · exact Or.inr (Or.inr (Or.inl h'))
  · simp only [List.mem_singleton] at h
    subst h
    exact Or.inr (Or.inr (Or.inr rfl))

/-- Claim C8, counterexample: two consecutive offline-fallback pipelines both
append a notice with the fixed identifier "err"; after the second one the
history contains two messages with the same id, refuting uniqueness over
repeated offline or error outcomes. -/
theorem C8_counterexample :
    ((finalHistory MOCK_MEMORY
        (finalHistory MOCK_MEMORY initHistory false
          ⟨"alpha", false, GenOutcome.ok [], 100⟩)
        false ⟨"beta", false, GenOutcome.ok [], 200⟩).map
      fun m => m.id).count "err" = 2 := by
  decide

/-- Claim C8 (amended): within one pipeline the generated identifiers are
pairwise distinct — the user message id `t.toString`, the scan-notice id
`'sys-' + t`, and the streaming-assistant id `'ai-' + (t+2)` never collide,
and none of them is "err"; and every message of every history snapshot of a
pipeline carries either an id from the initial history or one of this fixed
scheme.  However, every offline and error notice carries the constant id
"err", so uniqueness fails across repeated offline/error outcomes (see the
counterexample), and uniqueness of user/notice ids across pipelines relies on
distinct `Date.now()` readings. -/
theorem C8_theorem : ∀ (store : List Chunk) (hist0 : List Message) (isP : Bool)
    (inp : SendInput),
    ((userMsg inp).id ≠ (scanMsg inp).id ∧ (userMsg inp).id ≠ (streamMsg inp).id ∧
      (scanMsg inp).id ≠ (streamMsg inp).id) ∧
    ((userMsg inp).id ≠ "err" ∧ (scanMsg inp).id ≠ "err" ∧ (streamMsg inp).id ≠ "err") ∧
    (∀ s ∈ handleSendTrace store hist0 isP inp, ∀ m ∈ s,
      m.id ∈ hist0.map (fun x => x.id) ∨ m.id = (userMsg inp).id ∨
        m.id = (scanMsg inp).id ∨ m.id = (streamMsg inp).id ∨ m.id = "err") := by
  intro store hist0 isP inp
  refine ⟨⟨userId_ne_scanId inp, userId_ne_streamId inp, scanId_ne_streamId inp⟩,
    ⟨userId_ne_err inp, scanId_ne_err inp, streamId_ne_err inp⟩, ?_⟩
  by_cases hguard : jsTrim inp.input = "" ∨ isP = true
  · intro s hs m hm
    rw [handleSendTrace, if_pos hguard] at hs
    simp only [List.mem_singleton] at hs
    subst hs
    exact Or.inl (List.mem_map.mpr ⟨m, hm, rfl⟩)
  · push_neg at hguard
    obtain ⟨htrim, hisP⟩ := hguard
    have hfalse : isP = false := by
      revert hisP
      cases isP <;> simp
    subst hfalse
    have hWS : ∀ m' : Message, m' ∈ histWithStream store hist0 inp →
        m'.id ∈ hist0.map (fun x => x.id) ∨ m'.id = (userMsg inp).id ∨
          m'.id = (scanMsg inp).id ∨ m'.id = (streamMsg inp).id ∨ m'.id = "err" := by
      intro m' hm'
      rcases id_cases_histWithStream hm' with h | h | h | h
      · exact Or.inl h
      · exact Or.inr (Or.inl h)
      · exact Or.inr (Or.inr (Or.inl h))
      · exact Or.inr (Or.inr (Or.inr (Or.inl h)))
    have hfive : ∀ s ∈ [hist0, histAfterUser hist0 inp, histAfterNotice hist0 inp,
        histScanDone store hist0 inp, histWithStream store hist0 inp], ∀ m ∈ s,
        m.id ∈ hist0.map (fun x => x.id) ∨ m.id = (userMsg inp).id ∨
          m.id = (scanMsg inp).id ∨ m.id = (streamMsg inp).id ∨ m.id = "err" := by
      intro s hs m hm
      simp only [List.mem_cons, List.not_mem_nil, or_false] at hs
      rcases hs with rfl | rfl | rfl | rfl | rfl
      · exact Or.inl (List.mem_map.mpr ⟨m, hm, rfl⟩)
      · rcases id_cases_histAfterUser hm with h | h
        · exact Or.inl h
        · exact Or.inr (Or.inl h)
      · rcases id_cases_histAfterNotice hm with h | h | h
        · exact Or.inl h
        · exact Or.inr (Or.inl h)
        · exact Or.inr (Or.inr (Or.inl h))
      · rcases id_cases_histScanDone hm with h | h | h
        · exact Or.inl h
        · exact Or.inr (Or.inl h)
        · exact Or.inr (Or.inr (Or.inl h))
      · exact hWS m hm
    have hss : ∀ incs : List String,
        ∀ s ∈ streamingStates (streamMsg inp).id (histWithStream store hist0 inp) incs,
        ∀ m ∈ s,
        m.id ∈ hist0.map (fun x => x.id) ∨ m.id = (userMsg inp).id ∨
          m.id = (scanMsg inp).id ∨ m.id = (streamMsg inp).id ∨ m.id = "err" := by
      intro incs s hs m hm
      rcases List.mem_map.mp hs with ⟨j, _, rfl⟩
      rcases of_mem_setContent hm with ⟨m', hm', hid, _, _⟩
      rw [hid]
      exact hWS m' hm'
    by_cases hkey : inp.apiKey = true
    · rcases hg : inp.gen with incs | incs
      · rw [handleSendTrace_ok store hist0 inp incs htrim hkey hg]
        intro s hs m hm
        rcases List.mem_append.mp hs with hs | hs
        · rcases List.mem_append.mp hs with hs | hs
          · exact hfive s hs m hm
          · exact hss incs s hs m hm
        · simp only [List.mem_singleton] at hs
          subst hs
          rcases of_mem_clearStreaming hm with ⟨m₁, hm₁, hid₁, _, _⟩
          rcases of_mem_lastStreamState hm₁ with ⟨m₂, hm₂, hid₂, _, _⟩
          rw [hid₁, hid₂]
          exact hWS m₂ hm₂
      · rw [handleSendTrace_fault store hist0 inp incs htrim hkey hg]
        intro s hs m hm
        rcases List.mem_append.mp hs with hs | hs
        · rcases List.mem_append.mp hs with hs | hs
          · exact hfive s hs m hm
          · exact hss incs s hs m hm
        · simp only [List.mem_singleton] at hs
          subst hs
          rcases List.mem_append.mp hm with hm | hm
          · rcases of_mem_lastStreamState hm with ⟨m₂, hm₂, hid₂, _, _⟩
            rw [hid₂]
            exact hWS m₂ hm₂
          · simp only [List.mem_singleton] at hm
            subst hm
            exact Or.inr (Or.inr (Or.inr (Or.inr rfl)))
    · have hkey' : inp.apiKey = false := by
        revert hkey
        cases inp.apiKey <;> simp
      rw [handleSendTrace_offline store hist0 inp htrim hkey']
      intro s hs m hm
      simp only [List.mem_cons, List.not_mem_nil, or_false] at hs
      rcases hs with rfl | rfl | rfl | rfl | rfl
      · exact Or.inl (List.mem_map.mpr ⟨m, hm, rfl⟩)
      · rcases id_cases_histAfterUser hm with h | h
        · exact Or.inl h
        · exact Or.inr (Or.inl h)
      · rcases id_cases_histAfterNotice hm with h | h | h
        · exact Or.inl h
        · exact Or.inr (Or.inl h)
        · exact Or.inr (Or.inr (Or.inl h))
      · rcases id_cases_histScanDone hm with h | h | h
        · exact Or.inl h
        · exact Or.inr (Or.inl h)
        · exact Or.inr (Or.inr (Or.inl h))
      · rcases List.mem_append.mp hm with hm' | hm'
        · rcases id_cases_histScanDone hm' with h | h | h
          · exact Or.inl h
          · exact Or.inr (Or.inl h)
          · exact Or.inr (Or.inr (Or.inl h))
        · simp only [List.mem_singleton] at hm'
          subst hm'
          exact Or.inr (Or.inr (Or.inr (Or.inr rfl)))

/-- Claim C8, witness instance: the three generated identifiers of one
pipeline are pairwise distinct. -/
theorem C8_witness :
    (userMsg ⟨"go", true, GenOutcome.ok ["OK."], 7⟩).id ≠
        (scanMsg ⟨"go", true, GenOutcome.ok ["OK."], 7⟩).id ∧
      (userMsg ⟨"go", true, GenOutcome.ok ["OK."], 7⟩).id ≠
        (streamMsg ⟨"go", true, GenOutcome.ok ["OK."], 7⟩).id ∧
      (scanMsg ⟨"go", true, GenOutcome.ok ["OK."], 7⟩).id ≠
        (streamMsg ⟨"go", true, GenOutcome.ok ["OK."], 7⟩).id :=
  (C8_theorem MOCK_MEMORY initHistory false ⟨"go", true, GenOutcome.ok ["OK."], 7⟩).1
